import Mathlib

/-!
Verification development for the request decoder, router/authenticator and
metrics-reconciliation engine of the rust-agent repository.

Strings are modelled as lists of characters.  The Rust standard-library
string operations used by the source (str::lines, split_whitespace,
split(c), trim, to_lowercase, strip_suffix, integer parsing) are embedded
below, faithfully to their documented behaviour on the inputs the program
can see.  Numeric parsing of f64 quantities is modelled exactly over the
rationals, restricted to the plain decimal-digit strings that the cluster
API produces (Rust's float grammar is wider, but no claim touches fraction
or exponent forms).
-/

namespace RustAgent

abbrev Str := List Char

/-- Character list of a string literal. -/
def chars (s : String) : Str := s.data

/- ## Rust string-operation models -/

/-- Model of splitting a character list at every occurrence of a character,
as Rust's str::split(c) does: n separators yield n+1 chunks (possibly
empty). -/
def splitOnChar (sep : Char) : Str → List Str
  | [] => [[]]
  | c :: rest =>
    if c = sep then [] :: splitOnChar sep rest
    else
      match splitOnChar sep rest with
      | [] => [[c]]
      | s :: ss => (c :: s) :: ss

/-- Drop one trailing carriage return, as str::lines does to each
newline-terminated line. -/
def stripCR (l : Str) : Str :=
  if l.getLast? = some '\r' then l.dropLast else l

/-- Post-processing of the chunks produced by splitting at newlines:
every chunk but the last was terminated by a newline and has a trailing
carriage return removed; a final empty chunk (input ended with a newline)
is not a line. -/
def rustLinesAux : List Str → List Str
  | [] => []
  | [last] => if last = [] then [] else [last]
  | chunk :: rest => stripCR chunk :: rustLinesAux rest

/-- Model of Rust's str::lines. -/
def rustLines (s : Str) : List Str := rustLinesAux (splitOnChar '\n' s)

/-- Model of Vec::join applied with a newline separator, as the body
re-assembly in Request::parse does. -/
def joinNl : List Str → Str
  | [] => []
  | [l] => l
  | l :: rest => l ++ '\n' :: joinNl rest

/-- Model of str::split_whitespace: maximal nonempty runs of
non-whitespace characters. -/
def splitWsAux : Str → Str → List Str
  | [], acc => if acc = [] then [] else [acc.reverse]
  | c :: rest, acc =>
    if c.isWhitespace then
      if acc = [] then splitWsAux rest [] else acc.reverse :: splitWsAux rest []
    else splitWsAux rest (c :: acc)

def splitWs (s : Str) : List Str := splitWsAux s []

/-- Model of str::trim: remove leading and trailing whitespace. -/
def trim (s : Str) : Str :=
  ((s.dropWhile Char.isWhitespace).reverse.dropWhile Char.isWhitespace).reverse

/-- Model of str::to_lowercase on the ASCII header names the source
compares against. -/
def toLower (s : Str) : Str := s.map Char.toLower

/-- Numeric value of a decimal digit string (most significant first). -/
def natOfDigits (s : Str) : Nat := s.foldl (fun a c => a * 10 + (c.toNat - '0'.toNat)) 0

/-- Model of u64::from_str ("1879200".parse::&lt;u64&gt;()): an optional plus
sign, then at least one decimal digit, value within the u64 range. -/
def parseU64 (s : Str) : Option Nat :=
  let t := if s.head? = some '+' then s.tail else s
  if t ≠ [] ∧ (∀ c ∈ t, c.isDigit) ∧ natOfDigits t < 2 ^ 64 then some (natOfDigits t) else none

/-- Model of i32::from_str, the type Rust infers for the content_length
variable in Request::parse: optional sign, decimal digits, value within
the i32 range. -/
def parseI32 (s : Str) : Option Int :=
  match s with
  | '+' :: t =>
    if t ≠ [] ∧ (∀ c ∈ t, c.isDigit) ∧ (natOfDigits t : Int) ≤ 2 ^ 31 - 1 then
      some (natOfDigits t)
    else none
  | '-' :: t =>
    if t ≠ [] ∧ (∀ c ∈ t, c.isDigit) ∧ (natOfDigits t : Int) ≤ 2 ^ 31 then
      some (-(natOfDigits t : Int))
    else none
  | t =>
    if t ≠ [] ∧ (∀ c ∈ t, c.isDigit) ∧ (natOfDigits t : Int) ≤ 2 ^ 31 - 1 then
      some (natOfDigits t)
    else none

/-- Model of f64::from_str restricted to the plain decimal-digit quantity
strings the cluster API produces, with exact rational semantics (the f64
rounding of the source is idealised to exact arithmetic over the
rationals). -/
def parseF64 (s : Str) : Option ℚ :=
  if s ≠ [] ∧ (∀ c ∈ s, c.isDigit) then some ((natOfDigits s : ℚ)) else none

/-- Model of str::strip_suffix with a one-character pattern. -/
def stripSuffixChar (c : Char) (s : Str) : Option Str :=
  if s.getLast? = some c then some s.dropLast else none

/-- Model of str::strip_suffix with a string pattern. -/
def stripSuffixStr (suf s : Str) : Option Str :=
  if suf.isSuffixOf s then some (s.take (s.length - suf.length)) else none

/- ## src/server/types.rs: Method, Path, Request -/

/-- HTTP methods supported by the server (src/server/types.rs). -/
inductive Method where
  | GET
  | POST
deriving DecidableEq

/-- Method::from_str. -/
def Method.fromStr (s : Str) : Option Method :=
  if s = chars "GET" then some .GET
  else if s = chars "POST" then some .POST
  else none

/-- HTTP paths (routes) supported by the server (src/server/types.rs). -/
inductive Path where
  | Chat
  | Root
  | Favicon
deriving DecidableEq

/-- Path::from_str. -/
def Path.fromStr (s : Str) : Option Path :=
  if s = chars "/chat" then some .Chat
  else if s = chars "/" then some .Root
  else if s = chars "/favicon.ico" then some .Favicon
  else none

/-- Parsed HTTP request with relevant fields extracted
(struct Request of src/server/types.rs). -/
structure Request where
  method : Method
  path : Path
  api_key : Option Str
  body : Option Str
deriving DecidableEq

/-- Header-scanning loop of Request::parse: consumes lines until an empty
line (or the end), accumulating the most recently seen content-length value
and x-api-key value, and returns the remaining lines after the blank
separator. -/
def scanHeaders : List Str → Int → Option Str → Int × Option Str × List Str
  | [], cl, key => (cl, key, [])
  | line :: rest, cl, key =>
    if line = [] then (cl, key, rest)
    else
      let key' :=
        if (chars "x-api-key:").isPrefixOf (toLower line) then
          match (splitOnChar ':' line)[1]? with
          | some ks => some (trim ks)
          | none => key
        else key
      let cl' :=
        if (chars "content-length:").isPrefixOf (toLower line) then
          match (splitOnChar ':' line)[1]? with
          | some ls => (parseI32 (trim ls)).getD 0
          | none => cl
        else cl
      scanHeaders rest cl' key'

/-- Request::parse of src/server/types.rs: request line gives method and
path (unknown tokens fail the whole parse); headers are scanned for the
API key and content-length; a body is attached iff the parsed
content-length is positive, re-joining the remaining lines with a
newline. -/
def Request.parse (raw : Str) : Option Request :=
  match rustLines raw with
  | [] => none
  | first_line :: rest =>
    match (splitWs first_line)[0]? with
    | none => none
    | some tok0 =>
      match Method.fromStr tok0 with
      | none => none
      | some method =>
        match (splitWs first_line)[1]? with
        | none => none
        | some tok1 =>
          match Path.fromStr tok1 with
          | none => none
          | some path =>
            some { method := method, path := path,
                   api_key := (scanHeaders rest 0 none).2.1,
                   body :=
                     if 0 < (scanHeaders rest 0 none).1 then
                       some (joinNl (scanHeaders rest 0 none).2.2)
                     else none }

/-- The content-length value Request::parse ends the header scan with. -/
def parsedContentLength (raw : Str) : Int :=
  (scanHeaders (rustLines raw).tail 0 none).1

/-- The lines remaining after the header section, which Request::parse
joins into the body when the content-length is positive. -/
def remainderLines (raw : Str) : List Str :=
  (scanHeaders (rustLines raw).tail 0 none).2.2

/- ## src/server/types.rs: chat payload types -/

/-- A single message in a chat conversation (struct HttpMessage). -/
structure HttpMessage where
  role : Str
  content : Str
deriving DecidableEq

/-- The internal message type of the reasoning library, as far as the
server constructs it: a user or assistant message with its content. -/
inductive Message where
  | user (content : Str)
  | assistant (content : Str)
deriving DecidableEq

/-- TryFrom HttpMessage for Message (src/server/types.rs): only the roles
user and assistant convert; anything else is an error. -/
def HttpMessage.toMessage (m : HttpMessage) : Except Str Message :=
  if m.role = chars "user" then .ok (.user m.content)
  else if m.role = chars "assistant" then .ok (.assistant m.content)
  else .error (chars "Invalid role in HttpMessage")

/-- Request payload for the chat endpoint (struct ChatRequest), as decoded
from the JSON body. -/
structure ChatRequest where
  prompt : Str
  chat_history : Option (List HttpMessage)
deriving DecidableEq

/- ## src/server/mod.rs: router and handlers -/

/-- Result of routing one decoded request.  A response constructor records
the exact status line and body the source would write; the chatBody
constructor marks that control reached the JSON-decoding stage of the
chat handler with the given raw body (the continuation past that point
involves the external reasoning backend). -/
inductive RouteResult where
  | response (status : Str) (body : Str)
  | chatBody (body : Str)
deriving DecidableEq

/-- Server::chat_handler up to the JSON-decoding stage: POST without a
body is a 400; POST with a body proceeds to JSON decoding; any other
method is a 405. -/
def chat_handler (method : Method) (body : Option Str) : RouteResult :=
  match method with
  | .POST =>
    match body with
    | none => .response (chars "400 Bad Request") (chars "Missing request body")
    | some b => .chatBody b
  | _ => .response (chars "405 Method Not Allowed") (chars "Invalid method for /chat")

/-- Server::root_handler: the health reply, sent for any request whose
path is Root (the method is not inspected). -/
def root_handler : RouteResult :=
  .response (chars "200 OK") (chars "\x7b\"healthy\": true\x7d")

/-- Server::handle_client after the raw read: decode the buffer, validate
the API key (missing key 401, mismatched key 403), then dispatch by
path. -/
def handle_client (server_api_key : Str) (raw : Str) : RouteResult :=
  match Request.parse raw with
  | some request =>
    match request.api_key with
    | some api_key =>
      if api_key ≠ server_api_key then
        .response (chars "403 Forbidden") (chars "Invalid API key")
      else
        match request.path with
        | .Chat => chat_handler request.method request.body
        | .Root => root_handler
        | .Favicon => .response (chars "404 Not Found") (chars "Favicon not found")
    | none => .response (chars "401 Unauthorized") (chars "Missing API key")
  | none => .response (chars "400 Bad Request") (chars "Invalid request")

/-- Outcome of the chat handler on an already-JSON-decoded ChatRequest:
either an immediate response, or an invocation of the reasoning backend
with the prompt and the converted history. -/
inductive ChatStep where
  | respond (status : Str) (body : Str)
  | callBackend (prompt : Str) (history : List Message)
deriving DecidableEq

/-- The history-conversion loop of Server::chat_handler: converts entries
in order and stops at the first invalid role. -/
def convertHistory : List HttpMessage → Option (List Message)
  | [] => some []
  | m :: rest =>
    match m.toMessage with
    | .error _ => none
    | .ok msg => (convertHistory rest).map (fun ms => msg :: ms)

/-- Server::chat_handler after JSON decoding succeeded: with no history
field the backend is called with an empty history; with a history, every
entry is converted and the first invalid role aborts with a 400 before
the backend is reached. -/
def processChatRequest (req : ChatRequest) : ChatStep :=
  match req.chat_history with
  | none => .callBackend req.prompt []
  | some history =>
    match convertHistory history with
    | none => .respond (chars "400 Bad Request") (chars "Invalid message role in chat history")
    | some hist => .callBackend req.prompt hist

/- ## src/kube/types/metrics.rs: data model -/

structure NodeMetadata where
  name : Str
deriving DecidableEq

structure NodeCapacity where
  cpu : Str
  memory : Str
deriving DecidableEq

structure NodeStatus where
  capacity : NodeCapacity
deriving DecidableEq

/-- An inventory entry from the nodes endpoint. -/
structure Node where
  metadata : NodeMetadata
  status : NodeStatus
deriving DecidableEq

structure NodeListResponse where
  items : List Node
deriving DecidableEq

structure NodeUsage where
  cpu : Str
  memory : Str
deriving DecidableEq

/-- A metrics entry from the metrics endpoint. -/
structure NodeMetrics where
  metadata : NodeMetadata
  usage : NodeUsage
deriving DecidableEq

structure NodeMetricsListResponse where
  items : List NodeMetrics
deriving DecidableEq

/-- Combined per-node record with calculated percentages.  The u64
memory_bytes field is modelled as a natural number reduced modulo 2 to
the 64, matching the wrapping of the source's u64 multiplication; the f64
fields are modelled over the rationals. -/
structure NodeMetricsInfo where
  name : Str
  cpu_cores : ℚ
  cpu_percent : ℚ
  memory_bytes : Nat
  memory_percent : ℚ
deriving DecidableEq

structure NodeMetricsWithUsageResponse where
  items : List NodeMetricsInfo
deriving DecidableEq

/-- Errors of the kube module (src/kube/error.rs).  The payloads of the
first two variants live in external libraries and are not modelled. -/
inductive KubeAgentError where
  | HttpError
  | JsonParseError
  | ParseError (msg : Str)
deriving DecidableEq

/- ## src/kube/types/metrics.rs: unit parsing and reconciliation -/

/-- parse_cpu_nanoseconds: strip the trailing n marker, parse the
remainder, divide by one billion to obtain cores. -/
def parse_cpu_nanoseconds (cpu_str : Str) : Except Str ℚ :=
  match stripSuffixChar 'n' cpu_str with
  | some stripped =>
    match parseF64 stripped with
    | some nanoseconds => .ok (nanoseconds / 1000000000)
    | none => .error (chars "Failed to parse CPU nanoseconds: " ++ cpu_str)
  | none => .error (chars "Invalid CPU format: " ++ cpu_str)

/-- parse_memory_ki: strip the trailing Ki marker and parse the remainder
as a u64 kibibyte count. -/
def parse_memory_ki (mem_str : Str) : Except Str Nat :=
  match stripSuffixStr (chars "Ki") mem_str with
  | some stripped =>
    match parseU64 stripped with
    | some v => .ok v
    | none => .error (chars "Failed to parse memory Ki: " ++ mem_str)
  | none => .error (chars "Invalid memory format: " ++ mem_str)

/-- NodeMetricsInfo::from_node_and_metrics: parse the four quantity
strings (each failure aborting with the source's error message), then
derive percentages and the byte count. -/
def NodeMetricsInfo.from_node_and_metrics (node : Node) (metrics : NodeMetrics) :
    Except Str NodeMetricsInfo :=
  match parseF64 node.status.capacity.cpu with
  | none => .error (chars "Failed to parse CPU capacity: " ++ node.status.capacity.cpu)
  | some cpu_capacity =>
    match parse_memory_ki node.status.capacity.memory with
    | .error e => .error e
    | .ok memory_capacity_ki =>
      match parse_cpu_nanoseconds metrics.usage.cpu with
      | .error e => .error e
      | .ok cpu_usage_cores =>
        match parse_memory_ki metrics.usage.memory with
        | .error e => .error e
        | .ok memory_usage_ki =>
          .ok
            { name := node.metadata.name
              cpu_cores := cpu_usage_cores
              cpu_percent := cpu_usage_cores / cpu_capacity * 100
              memory_bytes := memory_usage_ki * 1024 % 2 ^ 64
              memory_percent := (memory_usage_ki : ℚ) / (memory_capacity_ki : ℚ) * 100 }

/-- The body of one iteration of the reconciliation loop in
NodeMetricsListResponse::combine_with_nodes: find the inventory entry
with the matching name (no match is a named lookup error), then derive
the combined record (a unit-parse failure is wrapped as a ParseError). -/
def processOne (nodes : List Node) (metrics : NodeMetrics) :
    Except KubeAgentError NodeMetricsInfo :=
  match nodes.find? (fun n => n.metadata.name == metrics.metadata.name) with
  | none =>
    .error (.ParseError (chars "No matching node found for metrics: " ++ metrics.metadata.name))
  | some node =>
    match NodeMetricsInfo.from_node_and_metrics node metrics with
    | .error e => .error (.ParseError e)
    | .ok info => .ok info

/-- The reconciliation loop over the metrics list: the first failing entry
aborts the whole computation; successful records are accumulated in
metrics-list order. -/
def combineItems (nodes : List Node) : List NodeMetrics → Except KubeAgentError (List NodeMetricsInfo)
  | [] => .ok []
  | m :: rest =>
    match processOne nodes m with
    | .error e => .error e
    | .ok info =>
      match combineItems nodes rest with
      | .error e => .error e
      | .ok items => .ok (info :: items)

/-- NodeMetricsListResponse::combine_with_nodes. -/
def NodeMetricsListResponse.combine_with_nodes (self : NodeMetricsListResponse)
    (nodes : NodeListResponse) : Except KubeAgentError NodeMetricsWithUsageResponse :=
  match combineItems nodes.items self.items with
  | .error e => .error e
  | .ok items => .ok ⟨items⟩

/- ## Helper lemmas on the string models -/

lemma splitOnChar_ne_nil (sep : Char) (s : Str) : splitOnChar sep s ≠ [] := by
  induction s with
  | nil => simp [splitOnChar]
  | cons c rest ih =>
    unfold splitOnChar
    by_cases hc : c = sep
    · simp [hc]
    · simp only [if_neg hc]
      cases h : splitOnChar sep rest with
      | nil => simp
      | cons s ss => simp

lemma splitOnChar_cons (sep c : Char) (rest : Str) :
    splitOnChar sep (c :: rest) =
      if c = sep then [] :: splitOnChar sep rest
      else
        match splitOnChar sep rest with
        | [] => [[c]]
        | s :: ss => (c :: s) :: ss := rfl

lemma splitOnChar_append_sep (sep : Char) (a b : Str) :
    splitOnChar sep (a ++ sep :: b) = splitOnChar sep a ++ splitOnChar sep b := by
  induction a with
  | nil => simp [splitOnChar]
  | cons c a ih =>
    simp only [List.cons_append, splitOnChar_cons]
    by_cases hc : c = sep
    · simp [hc, ih]
    · simp only [if_neg hc]
      rw [ih]
      cases h : splitOnChar sep a with
      | nil => exact absurd h (splitOnChar_ne_nil sep a)
      | cons s ss => simp

lemma rustLinesAux_append (xs ys : List Str) (hys : ys ≠ []) :
    rustLinesAux (xs ++ ys) = xs.map stripCR ++ rustLinesAux ys := by
  induction xs with
  | nil => simp
  | cons x xs ih =>
    cases hxy : xs ++ ys with
    | nil => exact absurd (List.append_eq_nil.mp hxy).2 hys
    | cons c cs =>
      simp only [List.cons_append, List.map_cons]
      rw [hxy]
      rw [show rustLinesAux (x :: c :: cs) = stripCR x :: rustLinesAux (c :: cs) from rfl]
      rw [← hxy, ih]

lemma rustLines_append_nl (a b : Str) :
    rustLines (a ++ '\n' :: b) = (splitOnChar '\n' a).map stripCR ++ rustLines b := by
  unfold rustLines
  rw [splitOnChar_append_sep]
  exact rustLinesAux_append _ _ (splitOnChar_ne_nil _ _)

/- ## Helper lemmas on the request decoder -/

lemma parse_body_spec (raw : Str) (req : Request) (h : Request.parse raw = some req) :
    req.body =
      if 0 < parsedContentLength raw then some (joinNl (remainderLines raw)) else none := by
  cases hl : rustLines raw with
  | nil =>
    simp only [Request.parse, hl] at h
    exact absurd h (by simp)
  | cons l0 rest =>
    simp only [Request.parse, hl] at h
    cases h0 : (splitWs l0)[0]? with
    | none => simp only [h0] at h; exact absurd h (by simp)
    | some t0 =>
      simp only [h0] at h
      cases hm : Method.fromStr t0 with
      | none => simp only [hm] at h; exact absurd h (by simp)
      | some method =>
        simp only [hm] at h
        cases h1 : (splitWs l0)[1]? with
        | none => simp only [h1] at h; exact absurd h (by simp)
        | some t1 =>
          simp only [h1] at h
          cases hp : Path.fromStr t1 with
          | none => simp only [hp] at h; exact absurd h (by simp)
          | some path =>
            simp only [hp, Option.some.injEq] at h
            subst h
            unfold parsedContentLength remainderLines
            rw [hl]
            rfl

lemma parse_none_of_bad_tokens (raw l0 : Str) (rest : List Str)
    (hl : rustLines raw = l0 :: rest)
    (hbad : (splitWs l0)[0]? = none ∨
      (∃ t0, (splitWs l0)[0]? = some t0 ∧ Method.fromStr t0 = none) ∨
      (splitWs l0)[1]? = none ∨
      (∃ t1, (splitWs l0)[1]? = some t1 ∧ Path.fromStr t1 = none)) :
    Request.parse raw = none := by
  simp only [Request.parse, hl]
  rcases hbad with h0 | ⟨t0, h0, hm⟩ | h1 | ⟨t1, h1, hp⟩
  · simp [h0]
  · simp [h0, hm]
  · cases h0 : (splitWs l0)[0]? with
    | none => simp [h0]
    | some t0 =>
      cases hm : Method.fromStr t0 with
      | none => simp [h0, hm]
      | some m => simp [h0, hm, h1]
  · cases h0 : (splitWs l0)[0]? with
    | none => simp [h0]
    | some t0 =>
      cases hm : Method.fromStr t0 with
      | none => simp [h0, hm]
      | some m => simp [h0, hm, h1, hp]

/- ## Helper lemmas on the quantity parsers -/

lemma parseU64_digits (ds : Str) (hne : ds ≠ []) (hdig : ∀ c ∈ ds, c.isDigit)
    (hlt : natOfDigits ds < 2 ^ 64) : parseU64 ds = some (natOfDigits ds) := by
  have hhead : ¬ ds.head? = some '+' := by
    cases ds with
    | nil => simp
    | cons c cs =>
      simp only [List.head?, Option.some.injEq]
      intro hc
      subst hc
      exact absurd (hdig '+' (by simp)) (by decide)
  simp only [parseU64]
  rw [if_neg hhead, if_pos ⟨hne, hdig, hlt⟩]

lemma parseF64_digits (ds : Str) (hne : ds ≠ []) (hdig : ∀ c ∈ ds, c.isDigit) :
    parseF64 ds = some ((natOfDigits ds : ℚ)) := by
  simp only [parseF64]
  rw [if_pos ⟨hne, hdig⟩]

lemma stripSuffixChar_concat (c : Char) (ds : Str) :
    stripSuffixChar c (ds ++ [c]) = some ds := by
  simp [stripSuffixChar, List.getLast?_concat, List.dropLast_concat]

lemma stripSuffixStr_concat (suf ds : Str) : stripSuffixStr suf (ds ++ suf) = some ds := by
  unfold stripSuffixStr
  rw [if_pos (by simp [List.isSuffixOf_iff_suffix])]
  simp [List.length_append, List.take_left]

lemma stripSuffixStr_none (suf s : Str) (h : ¬ suf <:+ s) : stripSuffixStr suf s = none := by
  unfold stripSuffixStr
  rw [if_neg (by simpa [List.isSuffixOf_iff_suffix] using h)]

/- ## Helper lemmas on the reconciliation engine -/

lemma from_node_name (node : Node) (me : NodeMetrics) (info : NodeMetricsInfo)
    (h : NodeMetricsInfo.from_node_and_metrics node me = .ok info) :
    info.name = node.metadata.name := by
  cases h1 : parseF64 node.status.capacity.cpu with
  | none =>
    simp only [NodeMetricsInfo.from_node_and_metrics, h1] at h
    exact absurd h (by simp)
  | some cap =>
    simp only [NodeMetricsInfo.from_node_and_metrics, h1] at h
    cases h2 : parse_memory_ki node.status.capacity.memory with
    | error e => simp only [h2] at h; exact absurd h (by simp)
    | ok mc =>
      simp only [h2] at h
      cases h3 : parse_cpu_nanoseconds me.usage.cpu with
      | error e => simp only [h3] at h; exact absurd h (by simp)
      | ok cu =>
        simp only [h3] at h
        cases h4 : parse_memory_ki me.usage.memory with
        | error e => simp only [h4] at h; exact absurd h (by simp)
        | ok mu =>
          simp only [h4, Except.ok.injEq] at h
          subst h
          rfl

lemma from_node_memory_bytes (node : Node) (me : NodeMetrics) (info : NodeMetricsInfo) (v : Nat)
    (hv : parse_memory_ki me.usage.memory = .ok v)
    (h : NodeMetricsInfo.from_node_and_metrics node me = .ok info) :
    info.memory_bytes = v * 1024 % 2 ^ 64 := by
  cases h1 : parseF64 node.status.capacity.cpu with
  | none =>
    simp only [NodeMetricsInfo.from_node_and_metrics, h1] at h
    exact absurd h (by simp)
  | some cap =>
    simp only [NodeMetricsInfo.from_node_and_metrics, h1] at h
    cases h2 : parse_memory_ki node.status.capacity.memory with
    | error e => simp only [h2] at h; exact absurd h (by simp)
    | ok mc =>
      simp only [h2] at h
      cases h3 : parse_cpu_nanoseconds me.usage.cpu with
      | error e => simp only [h3] at h; exact absurd h (by simp)
      | ok cu =>
        simp only [h3] at h
        cases h4 : parse_memory_ki me.usage.memory with
        | error e => simp only [h4] at h; exact absurd h (by simp)
        | ok mu =>
          simp only [h4, Except.ok.injEq] at h
          subst h
          rw [hv] at h4
          injection h4 with hmv
          rw [← hmv]

lemma processOne_name (nodes : List Node) (m : NodeMetrics) (info : NodeMetricsInfo)
    (h : processOne nodes m = .ok info) : info.name = m.metadata.name := by
  cases hf : nodes.find? (fun n => n.metadata.name == m.metadata.name) with
  | none => simp only [processOne, hf] at h; exact absurd h (by simp)
  | some node =>
    simp only [processOne, hf] at h
    cases hfn : NodeMetricsInfo.from_node_and_metrics node m with
    | error e => simp only [hfn] at h; exact absurd h (by simp)
    | ok i =>
      simp only [hfn, Except.ok.injEq] at h
      subst h
      have hbeq : node.metadata.name = m.metadata.name := by
        simpa using List.find?_some hf
      rw [from_node_name node m _ hfn, hbeq]

lemma combineItems_error_of_mem (nodes : List Node) (ms : List NodeMetrics) (m : NodeMetrics)
    (hm : m ∈ ms) (hfail : ∀ i, processOne nodes m ≠ .ok i) :
    ∃ e, combineItems nodes ms = .error e := by
  induction ms with
  | nil => cases hm
  | cons a rest ih =>
    cases hpa : processOne nodes a with
    | error e => exact ⟨e, by simp [combineItems, hpa]⟩
    | ok info =>
      cases hm with
      | head => exact absurd hpa (hfail info)
      | tail _ hmem =>
        obtain ⟨e, he⟩ := ih hmem
        exact ⟨e, by simp [combineItems, hpa, he]⟩

lemma combineItems_append_error (nodes : List Node) (pre : List NodeMetrics) (m : NodeMetrics)
    (post : List NodeMetrics) (e : KubeAgentError)
    (hok : ∀ x ∈ pre, ∃ i, processOne nodes x = .ok i)
    (hm : processOne nodes m = .error e) :
    combineItems nodes (pre ++ m :: post) = .error e := by
  induction pre with
  | nil => simp [combineItems, hm]
  | cons x pre ih =>
    obtain ⟨i, hi⟩ := hok x (by simp)
    have hrest := ih (fun y hy => hok y (by simp [hy]))
    simp [combineItems, hi, hrest]

lemma combineItems_ok_names (nodes : List Node) (ms : List NodeMetrics)
    (infos : List NodeMetricsInfo) (h : combineItems nodes ms = .ok infos) :
    infos.map NodeMetricsInfo.name = ms.map (fun m => m.metadata.name) := by
  induction ms generalizing infos with
  | nil =>
    simp only [combineItems, Except.ok.injEq] at h
    subst h
    rfl
  | cons m rest ih =>
    cases hpm : processOne nodes m with
    | error e => simp only [combineItems, hpm] at h; exact absurd h (by simp)
    | ok info =>
      simp only [combineItems, hpm] at h
      cases hrest : combineItems nodes rest with
      | error e => simp only [hrest] at h; exact absurd h (by simp)
      | ok items =>
        simp only [hrest, Except.ok.injEq] at h
        subst h
        simp only [List.map_cons]
        rw [processOne_name nodes m info hpm, ih items hrest]

/- ## Helper lemmas on the header scan -/

lemma scanHeaders_cl_zero : ∀ (ls : List Str) (key : Option Str),
    (∀ line ∈ ls.takeWhile (fun l => !l.isEmpty),
      (chars "content-length:").isPrefixOf (toLower line) →
      ∀ v, (splitOnChar ':' line)[1]? = some v → parseI32 (trim v) = none) →
    (scanHeaders ls 0 key).1 = 0 := by
  intro ls
  induction ls with
  | nil => intro key h; rfl
  | cons line rest ih =>
    intro key h
    by_cases hline : line = []
    · subst hline
      rfl
    · have hpos : (fun l => !List.isEmpty l) line = true := by
        simpa using hline
      have htw : (line :: rest).takeWhile (fun l => !l.isEmpty) =
          line :: rest.takeWhile (fun l => !l.isEmpty) :=
        List.takeWhile_cons_of_pos (p := fun l => !List.isEmpty l) hpos
      have hmem : line ∈ (line :: rest).takeWhile (fun l => !l.isEmpty) := by
        rw [htw]
        exact List.mem_cons_self _ _
      have hrest : ∀ l ∈ rest.takeWhile (fun l => !l.isEmpty),
          (chars "content-length:").isPrefixOf (toLower l) →
          ∀ v, (splitOnChar ':' l)[1]? = some v → parseI32 (trim v) = none := by
        intro l hlmem hpre v hv
        refine h l ?_ hpre v hv
        rw [htw]
        exact List.mem_cons_of_mem _ hlmem
      have hstep : scanHeaders (line :: rest) 0 key =
          scanHeaders rest
            (if (chars "content-length:").isPrefixOf (toLower line) then
               match (splitOnChar ':' line)[1]? with
               | some ls => (parseI32 (trim ls)).getD 0
               | none => 0
             else 0)
            (if (chars "x-api-key:").isPrefixOf (toLower line) then
               match (splitOnChar ':' line)[1]? with
               | some ks => some (trim ks)
               | none => key
             else key) := by
        simp only [scanHeaders]
        rw [if_neg hline]
      rw [hstep]
      have hcl0 : (if (chars "content-length:").isPrefixOf (toLower line) then
          match (splitOnChar ':' line)[1]? with
          | some ls => (parseI32 (trim ls)).getD 0
          | none => 0
        else 0) = 0 := by
        by_cases hcl : (chars "content-length:").isPrefixOf (toLower line)
        · rw [if_pos hcl]
          cases hv : (splitOnChar ':' line)[1]? with
          | none => rfl
          | some v => simp [h line hmem hcl v hv]
        · rw [if_neg hcl]
      rw [hcl0]
      exact ih _ hrest

lemma rustLines_post_chat_5 (B : Str) :
    rustLines (chars "POST /chat HTTP/1.1\r\ncontent-length: 5\r\n\r\n" ++ B) =
      chars "POST /chat HTTP/1.1" :: chars "content-length: 5" :: [] :: rustLines B := by
  have hsplit : chars "POST /chat HTTP/1.1\r\ncontent-length: 5\r\n\r\n" =
      chars "POST /chat HTTP/1.1\r\ncontent-length: 5\r\n\r" ++ ['\n'] := by decide
  rw [hsplit, List.append_assoc]
  rw [show (['\n'] ++ B : Str) = '\n' :: B from rfl]
  rw [rustLines_append_nl]
  rw [show (splitOnChar '\n'
        (chars "POST /chat HTTP/1.1\r\ncontent-length: 5\r\n\r")).map stripCR =
      [chars "POST /chat HTTP/1.1", chars "content-length: 5", []] from by decide]
  rfl

/- ## Claim theorems for the request decoder -/

/-- C6 counterexample: in the raw request below the byte sequence
following the header terminator is the four bytes a CR LF b, but the
decoded body is a LF b — the decoder re-joins the remaining lines with a
bare newline, so the body is not verbatim. -/
theorem c6_counterexample :
    Request.parse (chars "POST /chat HTTP/1.1\r\ncontent-length: 4\r\n\r\na\r\nb") =
      some ⟨.POST, .Chat, none, some (chars "a\nb")⟩ ∧
    chars "a\nb" ≠ chars "a\r\nb" := by decide

/-- C6 amended: with a positive content-length the decoded body is the
remaining text after the header terminator with its line endings
normalized — the lines are re-joined with a bare newline, so CR LF
becomes LF and one trailing newline is dropped (verbatim only for bodies
without carriage returns or trailing newlines); without a positive
content-length the body is absent. -/
theorem c6_amended_body_line_normalized :
    (∀ B : Str,
      Request.parse (chars "POST /chat HTTP/1.1\r\ncontent-length: 5\r\n\r\n" ++ B) =
        some ⟨.POST, .Chat, none, some (joinNl (rustLines B))⟩) ∧
    (∀ raw req, Request.parse raw = some req → ¬ 0 < parsedContentLength raw →
      req.body = none) := by
  constructor
  · intro B
    simp only [Request.parse, rustLines_post_chat_5]
    rfl
  · intro raw req h hcl
    rw [parse_body_spec raw req h, if_neg hcl]

/-- C6 amended witness: a body containing CR LF is normalized to LF, and a
request without a content-length decodes with an absent body. -/
theorem c6_amended_body_line_normalized_witness :
    Request.parse (chars "POST /chat HTTP/1.1\r\ncontent-length: 5\r\n\r\n" ++ chars "a\r\nb") =
      some ⟨.POST, .Chat, none, some (chars "a\nb")⟩ ∧
    (Request.mk .GET .Root none none).body = none := by
  constructor
  · exact c6_amended_body_line_normalized.1 (chars "a\r\nb")
  · exact c6_amended_body_line_normalized.2 (chars "GET / HTTP/1.1\r\n\r\n")
      (Request.mk .GET .Root none none) (by decide) (by decide)

/-- C7: Request::parse either fails or returns a fully populated request:
for every success the body field is present exactly when the parsed
content-length is positive, and an unknown method token or unknown path
token in the request line (or a missing token) always yields a decode
failure, never a partially populated request. -/
theorem c7_parse_total_or_failure :
    (∀ raw req, Request.parse raw = some req →
      (req.body.isSome ↔ 0 < parsedContentLength raw)) ∧
    (∀ raw l0 rest, rustLines raw = l0 :: rest →
      ((splitWs l0)[0]? = none ∨
        (∃ t0, (splitWs l0)[0]? = some t0 ∧ Method.fromStr t0 = none) ∨
        (splitWs l0)[1]? = none ∨
        (∃ t1, (splitWs l0)[1]? = some t1 ∧ Path.fromStr t1 = none)) →
      Request.parse raw = none) := by
  constructor
  · intro raw req h
    rw [parse_body_spec raw req h]
    by_cases hcl : 0 < parsedContentLength raw
    · simp [hcl]
    · simp [hcl]
  · intro raw l0 rest hl hbad
    exact parse_none_of_bad_tokens raw l0 rest hl hbad

/-- C7 witness: an unknown method token makes the whole decode fail. -/
theorem c7_parse_total_or_failure_witness :
    Request.parse (chars "PATCH / HTTP/1.1\r\n\r\n") = none := by
  exact c7_parse_total_or_failure.2 (chars "PATCH / HTTP/1.1\r\n\r\n")
    (chars "PATCH / HTTP/1.1") [[]] (by decide)
    (.inr (.inl ⟨chars "PATCH", by decide, by decide⟩))

/-- C10: when every content-length header in the scanned header section
has a value that does not parse as a number, the decoder does not fail:
the length is silently treated as zero, so the final content-length is
zero and any successfully decoded request has an absent body; in
particular a request with the header value abc decodes successfully with
no body. -/
theorem c10_unparseable_content_length_treated_as_zero :
    (∀ raw : Str,
      (∀ line ∈ (rustLines raw).tail.takeWhile (fun l => !l.isEmpty),
        (chars "content-length:").isPrefixOf (toLower line) →
        ∀ v, (splitOnChar ':' line)[1]? = some v → parseI32 (trim v) = none) →
      parsedContentLength raw = 0 ∧
      ∀ req, Request.parse raw = some req → req.body = none) ∧
    Request.parse (chars "GET / HTTP/1.1\r\ncontent-length: abc\r\n\r\nxyz") =
      some ⟨.GET, .Root, none, none⟩ := by
  constructor
  · intro raw h
    have hcl : parsedContentLength raw = 0 :=
      scanHeaders_cl_zero (rustLines raw).tail none h
    refine ⟨hcl, ?_⟩
    intro req hreq
    rw [parse_body_spec raw req hreq, hcl]
    rfl
  · decide

/-- C10 witness: the concrete request with content-length abc ends the
header scan with a zero content-length and decodes with an absent body. -/
theorem c10_unparseable_content_length_treated_as_zero_witness :
    parsedContentLength (chars "GET / HTTP/1.1\r\ncontent-length: abc\r\n\r\nxyz") = 0 ∧
    (Request.mk .GET .Root none none).body = none := by
  have hyp : ∀ line ∈ (rustLines
        (chars "GET / HTTP/1.1\r\ncontent-length: abc\r\n\r\nxyz")).tail.takeWhile
        (fun l => !l.isEmpty),
      (chars "content-length:").isPrefixOf (toLower line) →
      ∀ v, (splitOnChar ':' line)[1]? = some v → parseI32 (trim v) = none := by
    have hlines : (rustLines
        (chars "GET / HTTP/1.1\r\ncontent-length: abc\r\n\r\nxyz")).tail.takeWhile
        (fun l => !l.isEmpty) = [chars "content-length: abc"] := by decide
    rw [hlines]
    intro line hline hpre v hv
    have hl : line = chars "content-length: abc" := by simpa using hline
    subst hl
    rw [show (splitOnChar ':' (chars "content-length: abc"))[1]? =
        some (chars " abc") from by decide] at hv
    have hveq := Option.some.inj hv
    rw [← hveq]
    decide
  have happ := c10_unparseable_content_length_treated_as_zero.1
    (chars "GET / HTTP/1.1\r\ncontent-length: abc\r\n\r\nxyz") hyp
  exact ⟨happ.1, happ.2 (Request.mk .GET .Root none none) (by decide)⟩

/- ## Claim theorems for the reconciliation engine -/

/-- C3: reconciliation is all-or-nothing.  If some metrics entry has no
inventory entry of the same name the whole call returns an error — when
every earlier entry reconciles, the error names exactly that node — and a
unit-parse failure on any matched pair likewise makes the whole call
return an error; in every case no utilization list is produced, never a
shortened one. -/
theorem c3_reconciliation_all_or_nothing (metrics : NodeMetricsListResponse)
    (nodes : NodeListResponse) :
    (∀ m ∈ metrics.items, (∀ n ∈ nodes.items, n.metadata.name ≠ m.metadata.name) →
      ∃ e, metrics.combine_with_nodes nodes = .error e) ∧
    (∀ pre m post, metrics.items = pre ++ m :: post →
      (∀ x ∈ pre, ∃ i, processOne nodes.items x = .ok i) →
      (∀ n ∈ nodes.items, n.metadata.name ≠ m.metadata.name) →
      metrics.combine_with_nodes nodes =
        .error (.ParseError (chars "No matching node found for metrics: " ++
          m.metadata.name))) ∧
    (∀ m ∈ metrics.items, ∀ node e,
      nodes.items.find? (fun n => n.metadata.name == m.metadata.name) = some node →
      NodeMetricsInfo.from_node_and_metrics node m = .error e →
      ∃ e2, metrics.combine_with_nodes nodes = .error e2) := by
  refine ⟨?_, ?_, ?_⟩
  · intro m hm hname
    have hfind : nodes.items.find? (fun n => n.metadata.name == m.metadata.name) = none :=
      List.find?_eq_none.mpr (fun n hn => by simpa using hname n hn)
    have hfail : ∀ i, processOne nodes.items m ≠ .ok i := by
      intro i hi
      simp only [processOne, hfind] at hi
      exact absurd hi (by simp)
    obtain ⟨e, he⟩ := combineItems_error_of_mem nodes.items metrics.items m hm hfail
    exact ⟨e, by simp [NodeMetricsListResponse.combine_with_nodes, he]⟩
  · intro pre m post hitems hok hname
    have hfind : nodes.items.find? (fun n => n.metadata.name == m.metadata.name) = none :=
      List.find?_eq_none.mpr (fun n hn => by simpa using hname n hn)
    have hpm : processOne nodes.items m =
        .error (.ParseError (chars "No matching node found for metrics: " ++
          m.metadata.name)) := by
      simp [processOne, hfind]
    have hc := combineItems_append_error nodes.items pre m post _ hok hpm
    simp [NodeMetricsListResponse.combine_with_nodes, hitems, hc]
  · intro m hm node e hfind hfn
    have hfail : ∀ i, processOne nodes.items m ≠ .ok i := by
      intro i hi
      simp only [processOne, hfind, hfn] at hi
      exact absurd hi (by simp)
    obtain ⟨e2, he⟩ := combineItems_error_of_mem nodes.items metrics.items m hm hfail
    exact ⟨e2, by simp [NodeMetricsListResponse.combine_with_nodes, he]⟩

/-- C3 witness: one metrics entry and an empty inventory reconcile to the
named lookup error, with no utilization list. -/
theorem c3_reconciliation_all_or_nothing_witness :
    (⟨[⟨⟨chars "node-a"⟩, ⟨chars "100n", chars "50Ki"⟩⟩]⟩ :
        NodeMetricsListResponse).combine_with_nodes ⟨[]⟩ =
      .error (.ParseError (chars "No matching node found for metrics: " ++ chars "node-a")) := by
  exact (c3_reconciliation_all_or_nothing
      ⟨[⟨⟨chars "node-a"⟩, ⟨chars "100n", chars "50Ki"⟩⟩]⟩ ⟨[]⟩).2.1
    [] ⟨⟨chars "node-a"⟩, ⟨chars "100n", chars "50Ki"⟩⟩ [] rfl
    (by intro x hx; cases hx) (by intro n hn; cases hn)

/-- C9: whenever reconciliation succeeds, the output entries correspond
one-to-one and in order to the metrics list — the i-th output name equals
the i-th metrics name — regardless of the inventory list's order. -/
theorem c9_output_order_follows_metrics (metrics : NodeMetricsListResponse)
    (nodes : NodeListResponse) (out : NodeMetricsWithUsageResponse)
    (h : metrics.combine_with_nodes nodes = .ok out) :
    out.items.map NodeMetricsInfo.name = metrics.items.map (fun m => m.metadata.name) := by
  cases hc : combineItems nodes.items metrics.items with
  | error e =>
    simp only [NodeMetricsListResponse.combine_with_nodes, hc] at h
    exact absurd h (by simp)
  | ok items =>
    simp only [NodeMetricsListResponse.combine_with_nodes, hc, Except.ok.injEq] at h
    subst h
    exact combineItems_ok_names nodes.items metrics.items items hc

/-- C9 witness: a concrete successful reconciliation whose output names
follow the metrics list. -/
theorem c9_output_order_follows_metrics_witness :
    (⟨[{ name := chars "n1"
         cpu_cores := ((100 : ℕ) : ℚ) / 1000000000
         cpu_percent := ((100 : ℕ) : ℚ) / 1000000000 / ((2 : ℕ) : ℚ) * 100
         memory_bytes := 51200
         memory_percent := ((50 : ℕ) : ℚ) / ((100 : ℕ) : ℚ) * 100 }]⟩ :
      NodeMetricsWithUsageResponse).items.map NodeMetricsInfo.name =
      [chars "n1"] := by
  exact c9_output_order_follows_metrics
    ⟨[⟨⟨chars "n1"⟩, ⟨chars "100n", chars "50Ki"⟩⟩]⟩
    ⟨[⟨⟨chars "n1"⟩, ⟨⟨chars "2", chars "100Ki"⟩⟩⟩]⟩ _ rfl

/- ## Claim theorems for the unit parser -/

/-- C4 counterexample: the quantity string 1879200Ki parses to 1879200
kibibytes, but the derived memory_bytes field is 1924300800, not the
1923276800 the claim states. -/
theorem c4_counterexample :
    parse_memory_ki (chars "1879200Ki") = .ok 1879200 ∧
    (NodeMetricsInfo.from_node_and_metrics
        ⟨⟨chars "node-a"⟩, ⟨⟨chars "2", chars "6026268Ki"⟩⟩⟩
        ⟨⟨chars "node-a"⟩, ⟨chars "160635734n", chars "1879200Ki"⟩⟩).map
      NodeMetricsInfo.memory_bytes = .ok 1924300800 ∧
    (1924300800 : ℕ) ≠ 1923276800 := ⟨rfl, rfl, by decide⟩

/-- C4 amended: a digit string followed by the Ki marker parses to its
integer kibibyte value (provided it fits in a u64), the derived
memory_bytes field is that value times 1024 (as long as the product fits
in a u64), so 1879200Ki gives 1879200 kibibytes and 1924300800 bytes (not
1923276800), and a string lacking the Ki suffix is a parse error. -/
theorem c4_amended_memory_parsing :
    (∀ ds : Str, ds ≠ [] → (∀ c ∈ ds, c.isDigit) → natOfDigits ds < 2 ^ 64 →
      parse_memory_ki (ds ++ chars "Ki") = .ok (natOfDigits ds)) ∧
    parse_memory_ki (chars "1879200Ki") = .ok 1879200 ∧
    (∀ node me info v, parse_memory_ki me.usage.memory = .ok v → v * 1024 < 2 ^ 64 →
      NodeMetricsInfo.from_node_and_metrics node me = .ok info →
      info.memory_bytes = v * 1024) ∧
    (NodeMetricsInfo.from_node_and_metrics
        ⟨⟨chars "node-a"⟩, ⟨⟨chars "2", chars "6026268Ki"⟩⟩⟩
        ⟨⟨chars "node-a"⟩, ⟨chars "160635734n", chars "1879200Ki"⟩⟩).map
      NodeMetricsInfo.memory_bytes = .ok 1924300800 ∧
    (∀ s : Str, ¬ (chars "Ki") <:+ s → ∃ msg, parse_memory_ki s = .error msg) := by
  refine ⟨?_, rfl, ?_, rfl, ?_⟩
  · intro ds hne hdig hlt
    simp only [parse_memory_ki, stripSuffixStr_concat, parseU64_digits ds hne hdig hlt]
  · intro node me info v hv hlt h
    rw [from_node_memory_bytes node me info v hv h]
    exact Nat.mod_eq_of_lt hlt
  · intro s hs
    exact ⟨chars "Invalid memory format: " ++ s,
      by simp only [parse_memory_ki, stripSuffixStr_none _ _ hs]⟩

/-- C4 amended witness: the general parse applied to the digits 1879200
with the Ki marker yields 1879200 kibibytes. -/
theorem c4_amended_memory_parsing_witness :
    parse_memory_ki (chars "1879200" ++ chars "Ki") = .ok 1879200 := by
  exact c4_amended_memory_parsing.1 (chars "1879200") (by decide) (by decide) (by decide)

/-- C5: a digit string followed by the single-letter n marker parses to
its nanocore value divided by one billion (160635734n gives the rational
160635734 over 1000000000, that is 0.160635734 cores), and any string not
ending in n is a format error. -/
theorem c5_cpu_nanocore_parsing :
    (∀ ds : Str, ds ≠ [] → (∀ c ∈ ds, c.isDigit) →
      parse_cpu_nanoseconds (ds ++ ['n']) = .ok ((natOfDigits ds : ℚ) / 1000000000)) ∧
    parse_cpu_nanoseconds (chars "160635734n") = .ok ((160635734 : ℚ) / 1000000000) ∧
    (∀ s : Str, s.getLast? ≠ some 'n' → ∃ msg, parse_cpu_nanoseconds s = .error msg) := by
  refine ⟨?_, rfl, ?_⟩
  · intro ds hne hdig
    simp only [parse_cpu_nanoseconds, stripSuffixChar_concat, parseF64_digits ds hne hdig]
  · intro s hs
    exact ⟨chars "Invalid CPU format: " ++ s,
      by simp only [parse_cpu_nanoseconds, stripSuffixChar, if_neg hs]⟩

/-- C5 witness: the general parse applied to the digits 160635734 with the
n marker yields 160635734 over 1000000000 cores. -/
theorem c5_cpu_nanocore_parsing_witness :
    parse_cpu_nanoseconds (chars "160635734" ++ ['n']) =
      .ok ((160635734 : ℚ) / 1000000000) := by
  exact c5_cpu_nanocore_parsing.1 (chars "160635734") (by decide) (by decide)

/- ## Helper lemmas on the chat history conversion -/

lemma convertHistory_none_of_bad_role (history : List HttpMessage) (m : HttpMessage)
    (hm : m ∈ history) (hu : m.role ≠ chars "user") (ha : m.role ≠ chars "assistant") :
    convertHistory history = none := by
  induction history with
  | nil => cases hm
  | cons a rest ih =>
    cases hm with
    | head =>
      simp only [convertHistory, HttpMessage.toMessage, if_neg hu, if_neg ha]
    | tail _ hmem =>
      simp only [convertHistory]
      cases ha' : a.toMessage with
      | error e => rfl
      | ok msg => rw [ih hmem]; rfl

/- ## Claim theorems for the router -/

/-- C1: for every decodable request, the router checks the API key before
path dispatch: a missing X-Api-Key header yields the 401 response and a
key differing from the configured one yields the 403 response; in both
cases the routing result is the authentication response itself, produced
before the path dispatch, so no path handler (the health check included)
is invoked. -/
theorem c1_api_key_checked_before_dispatch (key raw : Str) (req : Request)
    (h : Request.parse raw = some req) :
    (req.api_key = none →
      handle_client key raw = .response (chars "401 Unauthorized") (chars "Missing API key")) ∧
    (∀ k, req.api_key = some k → k ≠ key →
      handle_client key raw = .response (chars "403 Forbidden") (chars "Invalid API key")) := by
  constructor
  · intro hk
    simp only [handle_client, h, hk]
  · intro k hk hne
    simp only [handle_client, h, hk]
    simp [hne]

/-- C1 witness: a request without the API-key header receives the 401
response, and one with a wrong key receives the 403 response. -/
theorem c1_api_key_checked_before_dispatch_witness :
    handle_client (chars "secret") (chars "GET / HTTP/1.1\r\n\r\n") =
      .response (chars "401 Unauthorized") (chars "Missing API key") ∧
    handle_client (chars "secret") (chars "GET / HTTP/1.1\r\nx-api-key: wrong\r\n\r\n") =
      .response (chars "403 Forbidden") (chars "Invalid API key") := by
  constructor
  · exact (c1_api_key_checked_before_dispatch (chars "secret") _
      ⟨.GET, .Root, none, none⟩ (by decide)).1 rfl
  · exact (c1_api_key_checked_before_dispatch (chars "secret") _
      ⟨.GET, .Root, some (chars "wrong"), none⟩ (by decide)).2 (chars "wrong") rfl (by decide)

/-- C2 counterexample: an authenticated POST to the Root path is a known
path whose dispatch-table method is GET, yet the router answers with the
200 health reply, not 405 — the Root handler never inspects the method. -/
theorem c2_counterexample :
    Request.parse (chars "POST / HTTP/1.1\r\nX-Api-Key: secret\r\n\r\n") =
      some ⟨.POST, .Root, some (chars "secret"), none⟩ ∧
    handle_client (chars "secret") (chars "POST / HTTP/1.1\r\nX-Api-Key: secret\r\n\r\n") =
      .response (chars "200 OK") (chars "\x7b\"healthy\": true\x7d") ∧
    chars "200 OK" ≠ chars "405 Method Not Allowed" := by decide

/-- C2 amended: for every authenticated request, a method mismatch on the
Chat path (the only handler that inspects the method) is answered 405;
the Root and Favicon handlers ignore the method, so any authenticated
request on Root receives the 200 health reply and any on Favicon the 404
reply, whatever the method. -/
theorem c2_amended_method_mismatch (key raw : Str) (req : Request)
    (h : Request.parse raw = some req) (hk : req.api_key = some key) :
    (req.path = .Chat → req.method = .GET →
      handle_client key raw =
        .response (chars "405 Method Not Allowed") (chars "Invalid method for /chat")) ∧
    (req.path = .Root →
      handle_client key raw = .response (chars "200 OK") (chars "\x7b\"healthy\": true\x7d")) ∧
    (req.path = .Favicon →
      handle_client key raw = .response (chars "404 Not Found") (chars "Favicon not found")) := by
  have hbase : handle_client key raw =
      match req.path with
      | .Chat => chat_handler req.method req.body
      | .Root => root_handler
      | .Favicon => .response (chars "404 Not Found") (chars "Favicon not found") := by
    simp only [handle_client, h, hk]
    simp
  refine ⟨?_, ?_, ?_⟩
  · intro hp hm
    rw [hbase, hp, hm]
    rfl
  · intro hp
    rw [hbase, hp]
    rfl
  · intro hp
    rw [hbase, hp]

/-- C2 amended witness: an authenticated GET on the Chat path receives the
405 response. -/
theorem c2_amended_method_mismatch_witness :
    handle_client (chars "secret") (chars "GET /chat HTTP/1.1\r\nx-api-key: secret\r\n\r\n") =
      .response (chars "405 Method Not Allowed") (chars "Invalid method for /chat") := by
  exact (c2_amended_method_mismatch (chars "secret") _
    ⟨.GET, .Chat, some (chars "secret"), none⟩ (by decide) rfl).1 rfl rfl

/-- C8: a chat request whose history contains an entry with a role other
than user or assistant is answered with the 400 invalid-role response and
the reasoning backend is never invoked; the whole envelope is rejected,
no partial history is forwarded. -/
theorem c8_invalid_role_rejected (req : ChatRequest) (history : List HttpMessage)
    (m : HttpMessage) (hh : req.chat_history = some history) (hm : m ∈ history)
    (hu : m.role ≠ chars "user") (ha : m.role ≠ chars "assistant") :
    processChatRequest req =
      .respond (chars "400 Bad Request") (chars "Invalid message role in chat history") ∧
    ∀ p hist, processChatRequest req ≠ .callBackend p hist := by
  have hcv := convertHistory_none_of_bad_role history m hm hu ha
  have hres : processChatRequest req =
      .respond (chars "400 Bad Request") (chars "Invalid message role in chat history") := by
    simp only [processChatRequest, hh, hcv]
  exact ⟨hres, fun p hist hc => by rw [hres] at hc; exact ChatStep.noConfusion hc⟩

/-- C8 witness: the spec's example envelope (prompt hi, one history entry
with role admin) is rejected with the 400 invalid-role response. -/
theorem c8_invalid_role_rejected_witness :
    processChatRequest ⟨chars "hi", some [⟨chars "admin", chars "x"⟩]⟩ =
      .respond (chars "400 Bad Request") (chars "Invalid message role in chat history") := by
  exact (c8_invalid_role_rejected ⟨chars "hi", some [⟨chars "admin", chars "x"⟩]⟩
    [⟨chars "admin", chars "x"⟩] ⟨chars "admin", chars "x"⟩ rfl (by simp)
    (by decide) (by decide)).1

end RustAgent
